import Mathlib

/-!
Shallow embedding of `examples/ice-vpn.py` (zhuker/aioice): the websocket
signaling handshake, the offer/answer orchestrator, the TUN relay loop, and
the JSON descriptor codec used by `object_to_string` / `object_from_string`.

Sockets are modelled by explicit message lists: a run of a coroutine is a
function from the incoming reply stream to the messages it sent, the replies
it left unconsumed, and its outcome.  The orchestrator coroutines `offer` and
`answer` are modelled by the sequence of externally visible actions they
perform (their event trace), parametrised by the local connection state and
by the descriptor received from the peer.
-/

namespace IceVpn

/-- Outcome of running `SimpleWebsocketSignaling.websocket_connect` against a
given stream of replies: normal return, a raised exception (the spec's
`ProtocolError`), or starvation of the reply stream (the real coroutine would
stay suspended in `recv`). -/
inductive ConnectOutcome where
  | ok
  | protocolError (msg : String)
  | blocked
deriving DecidableEq, Repr

/-- Model of `SimpleWebsocketSignaling.websocket_connect` (ice-vpn.py lines
64-87), run against the list `replies` of messages the websocket will
deliver.  Returns the texts sent (in order), the replies left unconsumed,
and the outcome.  The `request_offer` flag is the constructor argument; the
initial TLS/plain `websockets.connect` call is external I/O with no
message-level behaviour and is not part of the message trace. -/
def websocket_connect (request_offer : Bool) (our_id remote_id : String) :
    List String → List String × List String × ConnectOutcome
  | [] => (["HELLO " ++ our_id], [], .blocked)
  | msg :: rest =>
    if "HELLO" ≠ msg then
      (["HELLO " ++ our_id], rest,
        .protocolError ("expected HELLO. got unhandled response " ++ msg))
    else if request_offer then
      match rest with
      | [] => (["HELLO " ++ our_id, "SESSION " ++ remote_id], [], .blocked)
      | msg2 :: rest2 =>
        if "SESSION_OK" = msg2 then
          (["HELLO " ++ our_id, "SESSION " ++ remote_id, "OFFER_REQUEST"], rest2, .ok)
        else
          (["HELLO " ++ our_id, "SESSION " ++ remote_id], rest2,
            .protocolError ("expected SESSION_OK. got unhandled response " ++ msg2))
    else
      match rest with
      | [] => (["HELLO " ++ our_id], [], .blocked)
      | msg2 :: rest2 =>
        if "OFFER_REQUEST" = msg2 then
          (["HELLO " ++ our_id], rest2, .ok)
        else
          (["HELLO " ++ our_id], rest2, .protocolError ("unhandled response " ++ msg2))

/-- Model of `make_signaling` (lines 136-139): the channel is constructed
with `request_offer` exactly when the CLI action is `answer`. -/
def make_signaling_request_offer (action : String) : Bool :=
  action = "answer"

/-- A session descriptor as built in `offer` / `answer` (lines 150-151 and
188-190): the local candidates in SDP form plus the local credentials. -/
structure SessionDescriptor where
  candidates : List String
  username : String
  password : String
deriving DecidableEq, Repr

/-- The slice of `aioice.Connection` state the orchestrator reads when it
builds its outgoing descriptor. -/
structure ConnectionState where
  local_candidates : List String
  local_username : String
  local_password : String
deriving DecidableEq, Repr

/-- The descriptor dict built from the connection, as in lines 150-151. -/
def localDescriptor (conn : ConnectionState) : SessionDescriptor :=
  ⟨conn.local_candidates, conn.local_username, conn.local_password⟩

/-- Externally visible actions of the orchestrator coroutines, in program
order.  `addRemoteCandidate none` is the `add_remote_candidate(None)`
end-of-candidates marker. -/
inductive Event where
  | gatherCandidates
  | signalingConnect
  | signalingSend (d : SessionDescriptor)
  | signalingReceive (d : SessionDescriptor)
  | addRemoteCandidate (c : Option String)
  | setRemoteUsername (u : String)
  | setRemotePassword (p : String)
  | signalingClose
  | tunCreate
  | connectionConnect
  | tunOpen
  | addReader
  | tunUp
  | ipAddressAdd
  | linkSetMtu
  | relayLoopStart
deriving DecidableEq, Repr

/-- Events of the candidate/credential feeding block shared by `offer`
(lines 156-160) and `answer` (lines 181-185): each received candidate in
descriptor order, then the end-of-candidates marker, then the two
credential assignments. -/
def feedRemote (remote : SessionDescriptor) : List Event :=
  remote.candidates.map (fun c => Event.addRemoteCandidate (some c))
    ++ [Event.addRemoteCandidate none,
        Event.setRemoteUsername remote.username,
        Event.setRemotePassword remote.password]

/-- Events of `tun_start` (lines 94-116) up to entering the receive loop:
open the tap, install the readability callback, bring the device up, set its
address, set its MTU, then start the relay loop. -/
def tun_start_events : List Event :=
  [Event.tunOpen, Event.addReader, Event.tunUp,
   Event.ipAddressAdd, Event.linkSetMtu, Event.relayLoopStart]

/-- Event trace of `offer` (lines 142-168), parametrised by the connection
state after gathering and by the descriptor received from the peer. -/
def offer (conn : ConnectionState) (remote : SessionDescriptor) : List Event :=
  [Event.gatherCandidates, Event.signalingConnect,
   Event.signalingSend (localDescriptor conn), Event.signalingReceive remote]
  ++ feedRemote remote
  ++ [Event.signalingClose, Event.tunCreate, Event.connectionConnect]
  ++ tun_start_events

/-- Event trace of `answer` (lines 171-198). -/
def answer (conn : ConnectionState) (remote : SessionDescriptor) : List Event :=
  [Event.gatherCandidates, Event.signalingConnect, Event.signalingReceive remote]
  ++ feedRemote remote
  ++ [Event.signalingSend (localDescriptor conn), Event.signalingClose,
      Event.tunCreate, Event.connectionConnect]
  ++ tun_start_events

/-- Recogniser for descriptor-level signaling transfers. -/
def isDescriptorTransfer : Event → Bool
  | .signalingSend _ => true
  | .signalingReceive _ => true
  | _ => false

/-- Recogniser for the events that feed remote session data into the
Connection. -/
def isRemoteFeed : Event → Bool
  | .addRemoteCandidate _ => true
  | .setRemoteUsername _ => true
  | .setRemotePassword _ => true
  | _ => false

/-- One invocation of the `tun_reader` readability callback (lines 101-105)
on a tap with the given `mtu`, with `fd` the bytes currently readable from
the tap device: `tap.fd.read(tap.mtu + 32)` takes at most `mtu + 32` bytes,
and a non-empty read spawns exactly one `connection.sendto(data, component=1)`
task.  Returns the bytes left unread and the send tasks created. -/
def tun_reader (mtu : Nat) (fd : List Nat) : List Nat × List (List Nat × Nat) :=
  let data := fd.take (mtu + 32)
  (fd.drop (mtu + 32), if data.isEmpty then [] else [(data, 1)])

/-- The receive loop of `tun_start` (lines 116-120), run over the sequence
of `(data, component)` pairs the transport delivers: each non-empty payload
is written to the tap, empty payloads are skipped.  Returns the writes in
order. -/
def tun_inbound_writes : List (List Nat × Nat) → List (List Nat)
  | [] => []
  | (data, _) :: rest =>
    if data.isEmpty then tun_inbound_writes rest
    else data :: tun_inbound_writes rest

/-!
The descriptor wire codec.  `object_to_string` is `json.dumps` with default
settings and `object_from_string` is `json.loads`; both are modelled on the
subset of JSON that descriptor messages use (strings, arrays, objects —
numeric and constant literals never occur in a descriptor).  Encoding
follows `json.encoder.py_encode_basestring_ascii` (`ensure_ascii=True`,
item separator `", "`, key separator `": "`, keys in dict insertion order);
decoding follows `json.decoder.py_scanstring` (strict mode) and the
recursive value scanner, made total with a fuel argument that the top-level
entry point supplies in surplus.
-/

/-- A JSON value of the shape descriptor messages use. -/
inductive Json where
  | str (s : String)
  | arr (elems : List Json)
  | obj (members : List (String × Json))

/-- Lowercase hex digit character for `n < 16`, as Python's `'{0:04x}'`
formatting produces. -/
def hexDigitChar (n : Nat) : Char :=
  if n < 10 then Char.ofNat ('0'.toNat + n) else Char.ofNat ('a'.toNat + (n - 10))

/-- A `\uXXXX` escape for `n < 0x10000`. -/
def uEscape (n : Nat) : List Char :=
  ['\\', 'u', hexDigitChar (n / 4096 % 16), hexDigitChar (n / 256 % 16),
   hexDigitChar (n / 16 % 16), hexDigitChar (n % 16)]

/-- Python `json.dumps` default escaping of one character
(`py_encode_basestring_ascii`): the named shorthands, printable ASCII other
than `"` and `\` verbatim, `\uXXXX` for every other character, with a
surrogate pair for characters beyond the basic multilingual plane. -/
def escapeChar (c : Char) : List Char :=
  if c = '\\' then ['\\', '\\']
  else if c = '"' then ['\\', '"']
  else if c = Char.ofNat 8 then ['\\', 'b']
  else if c = Char.ofNat 12 then ['\\', 'f']
  else if c = '\n' then ['\\', 'n']
  else if c = '\r' then ['\\', 'r']
  else if c = '\t' then ['\\', 't']
  else if 0x20 ≤ c.toNat ∧ c.toNat ≤ 0x7e then [c]
  else if c.toNat < 0x10000 then uEscape c.toNat
  else uEscape (0xD800 + (c.toNat - 0x10000) / 0x400)
    ++ uEscape (0xDC00 + (c.toNat - 0x10000) % 0x400)

/-- JSON-escape every character of a string body. -/
def escapeList : List Char → List Char
  | [] => []
  | c :: cs => escapeChar c ++ escapeList cs

/-- A JSON string literal: quote, escaped body, quote. -/
def encString (s : String) : List Char :=
  '"' :: (escapeList s.data ++ ['"'])

mutual
/-- `json.dumps` with default separators over the modelled subset. -/
def encJson : Json → List Char
  | .str s => encString s
  | .arr es => '[' :: (encElems es ++ [']'])
  | .obj ms => '{' :: (encMembers ms ++ ['}'])
/-- Array elements joined by `", "`. -/
def encElems : List Json → List Char
  | [] => []
  | e :: es => encJson e ++ encElemsTail es
def encElemsTail : List Json → List Char
  | [] => []
  | e :: es => ',' :: ' ' :: (encJson e ++ encElemsTail es)
/-- Object members `"key": value` joined by `", "`, in insertion order. -/
def encMembers : List (String × Json) → List Char
  | [] => []
  | (k, v) :: ms => encString k ++ ':' :: ' ' :: (encJson v ++ encMembersTail ms)
def encMembersTail : List (String × Json) → List Char
  | [] => []
  | (k, v) :: ms =>
    ',' :: ' ' :: (encString k ++ ':' :: ' ' :: (encJson v ++ encMembersTail ms))
end

/-- Hex digit value, either case, as accepted by `json.decoder`. -/
def hexVal (c : Char) : Option Nat :=
  if '0' ≤ c ∧ c ≤ '9' then some (c.toNat - '0'.toNat)
  else if 'a' ≤ c ∧ c ≤ 'f' then some (c.toNat - 'a'.toNat + 10)
  else if 'A' ≤ c ∧ c ≤ 'F' then some (c.toNat - 'A'.toNat + 10)
  else none

/-- Value of the four hex digits of a `\uXXXX` escape. -/
def hex4Val (a b c d : Char) : Option Nat :=
  match hexVal a, hexVal b, hexVal c, hexVal d with
  | some x, some y, some z, some w => some (((x * 16 + y) * 16 + z) * 16 + w)
  | _, _, _, _ => none

/-- The `json.decoder` BACKSLASH table of single-character escapes. -/
def simpleUnescape (e : Char) : Option Char :=
  if e = '"' then some '"'
  else if e = '\\' then some '\\'
  else if e = '/' then some '/'
  else if e = 'b' then some (Char.ofNat 8)
  else if e = 'f' then some (Char.ofNat 12)
  else if e = 'n' then some '\n'
  else if e = 'r' then some '\r'
  else if e = 't' then some '\t'
  else none

/-- One backslash escape, given the characters following the backslash:
the decoded character and how many characters the escape consumed (Python
advances its `end` index by that amount).  A `\uXXXX` high surrogate
followed by `\uYYYY` low surrogate combines into one astral character, as
in `json.decoder.py_scanstring`. -/
def parseEscape (l : List Char) : Option (Char × Nat) :=
  match l with
  | [] => none
  | e :: rest =>
    if e = 'u' then
      match rest with
      | h1 :: h2 :: h3 :: h4 :: rest2 =>
        match hex4Val h1 h2 h3 h4 with
        | none => none
        | some n =>
          if 0xD800 ≤ n ∧ n ≤ 0xDBFF then
            match rest2 with
            | b1 :: b2 :: g1 :: g2 :: g3 :: g4 :: _ =>
              if b1 = '\\' ∧ b2 = 'u' then
                match hex4Val g1 g2 g3 g4 with
                | none => none
                | some m =>
                  if 0xDC00 ≤ m ∧ m ≤ 0xDFFF then
                    some (Char.ofNat
                      (0x10000 + (n - 0xD800) * 0x400 + (m - 0xDC00)), 11)
                  else none
              else none
            | _ => none
          else if 0xDC00 ≤ n ∧ n ≤ 0xDFFF then none
          else some (Char.ofNat n, 5)
      | _ => none
    else
      match simpleUnescape e with
      | some ch => some (ch, 1)
      | none => none

/-- Model of `json.decoder.py_scanstring` in strict mode: the characters of
a string literal after its opening quote, stopping at the closing quote.
Surrogate `\uXXXX\uYYYY` pairs are combined as Python combines them; an
unpaired surrogate — representable in a Python `str` but not as a Lean
`Char` — is rejected (it never occurs in `json.dumps` output), as are raw
control characters. -/
def parseStringBody : List Char → Option (List Char × List Char)
  | [] => none
  | c :: rest =>
    if c = '"' then some ([], rest)
    else if c = '\\' then
      match parseEscape rest with
      | some (ch, k) =>
        match parseStringBody (rest.drop k) with
        | some (cs, r) => some (ch :: cs, r)
        | none => none
      | none => none
    else if c.toNat < 0x20 then none
    else
      match parseStringBody rest with
      | some (cs, r) => some (c :: cs, r)
      | none => none
termination_by l => l.length
decreasing_by
  all_goals simp only [List.length_drop, List.length_cons]
  all_goals omega

/-- JSON whitespace, as in `json.decoder.WHITESPACE`. -/
def isJsonWs (c : Char) : Bool :=
  c = ' ' || c = '\t' || c = '\n' || c = '\r'

/-- Skip leading JSON whitespace. -/
def skipWs : List Char → List Char
  | [] => []
  | c :: cs => if isJsonWs c then skipWs cs else c :: cs

mutual
/-- Model of the `json.loads` value scanner on the modelled subset.  `fuel`
only makes the mutual recursion total; the entry point passes it in
surplus. -/
def parseValue : Nat → List Char → Option (Json × List Char)
  | 0, _ => none
  | _ + 1, [] => none
  | fuel + 1, c :: r =>
    if c = '"' then
      match parseStringBody r with
      | some (body, r2) => some (.str (String.mk body), r2)
      | none => none
    else if c = '[' then
      match skipWs r with
      | [] => none
      | c2 :: r2 =>
        if c2 = ']' then some (.arr [], r2)
        else
          match parseElems fuel (c2 :: r2) with
          | some (es, r3) => some (.arr es, r3)
          | none => none
    else if c = '{' then
      match skipWs r with
      | [] => none
      | c2 :: r2 =>
        if c2 = '}' then some (.obj [], r2)
        else
          match parseMembers fuel (c2 :: r2) with
          | some (ms, r3) => some (.obj ms, r3)
          | none => none
    else none
/-- One or more comma-separated array elements up to the closing `]`. -/
def parseElems : Nat → List Char → Option (List Json × List Char)
  | 0, _ => none
  | fuel + 1, cs =>
    match parseValue fuel cs with
    | none => none
    | some (v, r) =>
      match skipWs r with
      | ',' :: r2 =>
        match parseElems fuel (skipWs r2) with
        | some (vs, r3) => some (v :: vs, r3)
        | none => none
      | ']' :: r2 => some ([v], r2)
      | _ => none
/-- One or more `"key": value` members up to the closing `}`. -/
def parseMembers : Nat → List Char → Option (List (String × Json) × List Char)
  | 0, _ => none
  | fuel + 1, cs =>
    match cs with
    | '"' :: r =>
      match parseStringBody r with
      | none => none
      | some (key, r1) =>
        match skipWs r1 with
        | ':' :: r2 =>
          match parseValue fuel (skipWs r2) with
          | none => none
          | some (v, r3) =>
            match skipWs r3 with
            | ',' :: r4 =>
              match parseMembers fuel (skipWs r4) with
              | some (ms, r5) => some ((String.mk key, v) :: ms, r5)
              | none => none
            | '}' :: r4 => some ([(String.mk key, v)], r4)
            | _ => none
        | _ => none
    | _ => none
end

/-- Model of `object_to_string` (ice-vpn.py lines 35-36): `json.dumps` with
default settings. -/
def object_to_string (j : Json) : String := String.mk (encJson j)

/-- Model of `object_from_string` (ice-vpn.py lines 31-32): `json.loads` —
skip leading whitespace, scan one value, require nothing but whitespace
after it. -/
def object_from_string (s : String) : Option Json :=
  match parseValue ((skipWs s.data).length + 1) (skipWs s.data) with
  | some (j, r) => if skipWs r = [] then some j else none
  | none => none

/-- The descriptor dict as built in `offer` (lines 150-151) and `answer`
(lines 188-190): keys in insertion order candidates, password, username. -/
def descrJson (d : SessionDescriptor) : Json :=
  .obj [("candidates", .arr (d.candidates.map .str)),
        ("password", .str d.password),
        ("username", .str d.username)]

/-- Recogniser for the post-exchange lifecycle events of the orchestrator. -/
def isLifecycleEvent : Event → Bool
  | .signalingClose => true
  | .tunCreate => true
  | .connectionConnect => true
  | .tunOpen => true
  | .addReader => true
  | .tunUp => true
  | .ipAddressAdd => true
  | .linkSetMtu => true
  | .relayLoopStart => true
  | _ => false

/-- The inbound loop writes exactly the non-empty payloads, in delivery
order (helper shared by several results below). -/
theorem tun_inbound_writes_eq_filter (msgs : List (List Nat × Nat)) :
    tun_inbound_writes msgs = (msgs.map Prod.fst).filter (fun d => !d.isEmpty) := by
  induction msgs with
  | nil => rfl
  | cons m rest ih =>
    obtain ⟨data, comp⟩ := m
    by_cases h : data.isEmpty <;> simp [tun_inbound_writes, h, ih]

end IceVpn

namespace IceVpn

/-- C1: `websocket_connect` first sends `HELLO <our_id>` and requires the
exact reply `HELLO`; exactly in the request-offer (answer) role it then
sends `SESSION <remote_id>`, requires the exact reply `SESSION_OK`, and
sends `OFFER_REQUEST`; in the offer role it instead awaits the exact message
`OFFER_REQUEST`.  On the expected replies it completes, having sent exactly
these messages in this order and consumed exactly the two expected replies,
leaving the rest of the stream untouched. -/
theorem connect_handshake_by_role (our_id remote_id : String) (rest : List String) :
    websocket_connect true our_id remote_id ("HELLO" :: "SESSION_OK" :: rest)
      = (["HELLO " ++ our_id, "SESSION " ++ remote_id, "OFFER_REQUEST"], rest,
          ConnectOutcome.ok)
    ∧ websocket_connect false our_id remote_id ("HELLO" :: "OFFER_REQUEST" :: rest)
      = (["HELLO " ++ our_id], rest, ConnectOutcome.ok) :=
  ⟨rfl, rfl⟩

/-- C2: which peer transfers its descriptor first is fixed by role: the
offer trace performs its single `signaling.send` before its single
`signaling.receive`, the answer trace the other way round, and no other
descriptor transfer occurs in either trace. -/
theorem descriptor_exchange_order_by_role (conn : ConnectionState)
    (remote : SessionDescriptor) :
    (∃ pre mid post,
      offer conn remote
        = pre ++ [Event.signalingSend (localDescriptor conn)] ++ mid
            ++ [Event.signalingReceive remote] ++ post
        ∧ (pre ++ mid ++ post).all (fun e => !isDescriptorTransfer e))
    ∧ (∃ pre mid post,
      answer conn remote
        = pre ++ [Event.signalingReceive remote] ++ mid
            ++ [Event.signalingSend (localDescriptor conn)] ++ post
        ∧ (pre ++ mid ++ post).all (fun e => !isDescriptorTransfer e)) := by
  constructor
  · refine ⟨[Event.gatherCandidates, Event.signalingConnect], [],
      feedRemote remote
        ++ [Event.signalingClose, Event.tunCreate, Event.connectionConnect]
        ++ tun_start_events, ?_, ?_⟩
    · simp [offer, feedRemote, tun_start_events]
    · simp [feedRemote, tun_start_events, isDescriptorTransfer]
  · refine ⟨[Event.gatherCandidates, Event.signalingConnect], feedRemote remote,
      [Event.signalingClose, Event.tunCreate, Event.connectionConnect]
        ++ tun_start_events, ?_, ?_⟩
    · simp [answer, feedRemote, tun_start_events]
    · simp [feedRemote, tun_start_events, isDescriptorTransfer]

/-- C3: on both sides, every candidate of the received descriptor is added
to the Connection in descriptor order, then the end-of-candidates marker is
added exactly once after all of them, then the remote username and password
are set to exactly the descriptor's values; no other event of the trace
touches the remote session data. -/
theorem remote_feed_order (conn : ConnectionState) (remote : SessionDescriptor) :
    (∃ pre post,
      offer conn remote
        = pre ++ remote.candidates.map (fun c => Event.addRemoteCandidate (some c))
            ++ [Event.addRemoteCandidate none,
                Event.setRemoteUsername remote.username,
                Event.setRemotePassword remote.password] ++ post
        ∧ pre.all (fun e => !isRemoteFeed e) ∧ post.all (fun e => !isRemoteFeed e))
    ∧ (∃ pre post,
      answer conn remote
        = pre ++ remote.candidates.map (fun c => Event.addRemoteCandidate (some c))
            ++ [Event.addRemoteCandidate none,
                Event.setRemoteUsername remote.username,
                Event.setRemotePassword remote.password] ++ post
        ∧ pre.all (fun e => !isRemoteFeed e) ∧ post.all (fun e => !isRemoteFeed e)) := by
  constructor
  · refine ⟨[Event.gatherCandidates, Event.signalingConnect,
        Event.signalingSend (localDescriptor conn), Event.signalingReceive remote],
      [Event.signalingClose, Event.tunCreate, Event.connectionConnect]
        ++ tun_start_events, ?_, ?_, ?_⟩
    · simp [offer, feedRemote, tun_start_events]
    · simp [isRemoteFeed]
    · simp [tun_start_events, isRemoteFeed]
  · refine ⟨[Event.gatherCandidates, Event.signalingConnect,
        Event.signalingReceive remote],
      [Event.signalingSend (localDescriptor conn), Event.signalingClose,
        Event.tunCreate, Event.connectionConnect] ++ tun_start_events, ?_, ?_, ?_⟩
    · simp [answer, feedRemote, tun_start_events]
    · simp [isRemoteFeed]
    · simp [tun_start_events, isRemoteFeed]

/-- C4: the handshake raises a protocol error exactly when some consumed
reply differs from the expected token at its step (first reply not `HELLO`;
second reply not `SESSION_OK` in the request-offer role, or not
`OFFER_REQUEST` in the offer role), and on such a mismatch it fails
immediately: the messages sent are exactly those preceding the failing step
and the remaining reply stream is left untouched (no retry). -/
theorem connect_protocol_error_iff :
    (∀ (request_offer : Bool) (our_id remote_id : String) (replies : List String),
      (∃ e, (websocket_connect request_offer our_id remote_id replies).2.2
              = ConnectOutcome.protocolError e)
      ↔ (∃ r1 rest, replies = r1 :: rest ∧
          (r1 ≠ "HELLO"
            ∨ (r1 = "HELLO" ∧ ∃ r2 rest2, rest = r2 :: rest2 ∧
                ((request_offer = true ∧ r2 ≠ "SESSION_OK")
                  ∨ (request_offer = false ∧ r2 ≠ "OFFER_REQUEST"))))))
    ∧ (∀ (request_offer : Bool) (our_id remote_id r1 : String) (rest : List String),
        r1 ≠ "HELLO" →
        websocket_connect request_offer our_id remote_id (r1 :: rest)
          = (["HELLO " ++ our_id], rest,
              ConnectOutcome.protocolError
                ("expected HELLO. got unhandled response " ++ r1)))
    ∧ (∀ (our_id remote_id r2 : String) (rest : List String), r2 ≠ "SESSION_OK" →
        websocket_connect true our_id remote_id ("HELLO" :: r2 :: rest)
          = (["HELLO " ++ our_id, "SESSION " ++ remote_id], rest,
              ConnectOutcome.protocolError
                ("expected SESSION_OK. got unhandled response " ++ r2)))
    ∧ (∀ (our_id remote_id r2 : String) (rest : List String), r2 ≠ "OFFER_REQUEST" →
        websocket_connect false our_id remote_id ("HELLO" :: r2 :: rest)
          = (["HELLO " ++ our_id], rest,
              ConnectOutcome.protocolError ("unhandled response " ++ r2))) := by
  refine ⟨?_, ?_, ?_, ?_⟩
  · intro request_offer our_id remote_id replies
    match replies with
    | [] => simp [websocket_connect]
    | r1 :: rest =>
      by_cases h1 : r1 = "HELLO"
      · subst h1
        cases request_offer with
        | true =>
          match rest with
          | [] => simp [websocket_connect]
          | r2 :: rest2 =>
            by_cases h2 : r2 = "SESSION_OK"
            · subst h2; simp [websocket_connect]
            · refine iff_of_true
                ⟨"expected SESSION_OK. got unhandled response " ++ r2, ?_⟩
                ⟨"HELLO", r2 :: rest2, rfl,
                  Or.inr ⟨rfl, r2, rest2, rfl, Or.inl ⟨rfl, h2⟩⟩⟩
              simp [websocket_connect, Ne.symm h2]
        | false =>
          match rest with
          | [] => simp [websocket_connect]
          | r2 :: rest2 =>
            by_cases h2 : r2 = "OFFER_REQUEST"
            · subst h2; simp [websocket_connect]
            · refine iff_of_true ⟨"unhandled response " ++ r2, ?_⟩
                ⟨"HELLO", r2 :: rest2, rfl,
                  Or.inr ⟨rfl, r2, rest2, rfl, Or.inr ⟨rfl, h2⟩⟩⟩
              simp [websocket_connect, Ne.symm h2]
      · refine iff_of_true
          ⟨"expected HELLO. got unhandled response " ++ r1, ?_⟩
          ⟨r1, rest, rfl, Or.inl h1⟩
        simp [websocket_connect, Ne.symm h1]
  · intro request_offer our_id remote_id r1 rest h1
    simp [websocket_connect, Ne.symm h1]
  · intro our_id remote_id r2 rest h2
    simp [websocket_connect, Ne.symm h2]
  · intro our_id remote_id r2 rest h2
    simp [websocket_connect, Ne.symm h2]

/-- Witness for `connect_protocol_error_iff` at concrete inputs: a wrong
greeting reply is a protocol error, and a wrong ready signal on the offer
side fails with exactly the greeting sent. -/
theorem connect_protocol_error_iff_witness :
    (∃ e, (websocket_connect true "a" "b" ["NOPE"]).2.2
            = ConnectOutcome.protocolError e)
    ∧ websocket_connect false "a" "b" ["HELLO", "X"]
        = (["HELLO " ++ "a"], [],
            ConnectOutcome.protocolError ("unhandled response " ++ "X")) :=
  ⟨(connect_protocol_error_iff.1 true "a" "b" ["NOPE"]).mpr
      ⟨"NOPE", [], rfl, Or.inl (by decide)⟩,
    connect_protocol_error_iff.2.2.2 "a" "b" "X" [] (by decide)⟩

/-- C6 counterexample: in the `offer` trace at a concrete input,
`Connection.connect()` happens strictly before the virtual interface is
opened (and hence before it is brought up and configured), refuting the
claim that the interface is opened and configured first. -/
theorem connect_before_interface_cex :
    Event.connectionConnect ∈ offer ⟨[], "u", "p"⟩ ⟨["c"], "ru", "rp"⟩
    ∧ Event.tunOpen ∈ offer ⟨[], "u", "p"⟩ ⟨["c"], "ru", "rp"⟩
    ∧ (offer ⟨[], "u", "p"⟩ ⟨["c"], "ru", "rp"⟩).indexOf Event.connectionConnect
        < (offer ⟨[], "u", "p"⟩ ⟨["c"], "ru", "rp"⟩).indexOf Event.tunOpen := by
  decide

/-- C6 amended: after the descriptor exchange both orchestrators close the
SignalingChannel, then construct the interface object, then call
`Connection.connect()`, and only after it returns do they open the
interface, bring it up, set its address and MTU; the relay loop starts
last, after the interface is configured.  No lifecycle event occurs earlier
in the trace. -/
theorem orchestrator_lifecycle_order (conn : ConnectionState)
    (remote : SessionDescriptor) :
    (∃ pre,
      offer conn remote
        = pre ++ [Event.signalingClose, Event.tunCreate, Event.connectionConnect,
            Event.tunOpen, Event.addReader, Event.tunUp,
            Event.ipAddressAdd, Event.linkSetMtu, Event.relayLoopStart]
        ∧ pre.all (fun e => !isLifecycleEvent e))
    ∧ (∃ pre,
      answer conn remote
        = pre ++ [Event.signalingClose, Event.tunCreate, Event.connectionConnect,
            Event.tunOpen, Event.addReader, Event.tunUp,
            Event.ipAddressAdd, Event.linkSetMtu, Event.relayLoopStart]
        ∧ pre.all (fun e => !isLifecycleEvent e)) := by
  constructor
  · refine ⟨[Event.gatherCandidates, Event.signalingConnect,
        Event.signalingSend (localDescriptor conn), Event.signalingReceive remote]
        ++ feedRemote remote, ?_, ?_⟩
    · simp [offer, feedRemote, tun_start_events]
    · simp [feedRemote, isLifecycleEvent]
  · refine ⟨[Event.gatherCandidates, Event.signalingConnect,
        Event.signalingReceive remote] ++ feedRemote remote
        ++ [Event.signalingSend (localDescriptor conn)], ?_, ?_⟩
    · simp [answer, feedRemote, tun_start_events]
    · simp [feedRemote, isLifecycleEvent]

/-- C7 counterexample: with MTU 0 and one readable byte, the reader
consumes and forwards that byte, so the frame read is not the
MTU-sized prefix of the readable data: the read size is not the MTU. -/
theorem tun_reader_read_size_cex :
    tun_reader 0 [7] = ([], [([7], 1)])
    ∧ (tun_reader 0 [7]).2 ≠ [(([7] : List Nat).take 0, 1)] := by
  decide

/-- C7 amended: each readability callback reads one frame of exactly
`min (mtu + 32) available` bytes off the front of the readable data
(`tap.fd.read(tap.mtu + 32)`), and forwards exactly that frame when it is
non-empty. -/
theorem tun_reader_read_size (mtu : Nat) (fd : List Nat) :
    ∃ data : List Nat,
      fd = data ++ (tun_reader mtu fd).1
      ∧ data.length = min (mtu + 32) fd.length
      ∧ (tun_reader mtu fd).2 = if data.isEmpty then [] else [(data, 1)] := by
  exact ⟨fd.take (mtu + 32), by simp [tun_reader], by simp, rfl⟩

/-- C8: for every inbound delivery sequence, the interface receives exactly
the non-empty payloads, byte-exact and in delivery order; empty payloads
produce no write. -/
theorem inbound_writes_exact (msgs : List (List Nat × Nat)) :
    tun_inbound_writes msgs = (msgs.map Prod.fst).filter (fun d => !d.isEmpty) :=
  tun_inbound_writes_eq_filter msgs

/-- C9: a readability callback whose read yields no data spawns no send
task; a non-empty read spawns exactly one send of exactly the read frame to
component 1. -/
theorem tun_reader_send_iff (mtu : Nat) (fd : List Nat) :
    ((fd.take (mtu + 32)).isEmpty = true → (tun_reader mtu fd).2 = [])
    ∧ ((fd.take (mtu + 32)).isEmpty = false →
        (tun_reader mtu fd).2 = [(fd.take (mtu + 32), 1)]) := by
  constructor <;> intro h <;> simp [tun_reader, h]

/-- Witness for `tun_reader_send_iff`: an empty tap read sends nothing; a
one-byte read sends that byte to component 1. -/
theorem tun_reader_send_iff_witness :
    (tun_reader 3 []).2 = [] ∧ (tun_reader 3 [9]).2 = [([9], 1)] :=
  ⟨(tun_reader_send_iff 3 []).1 (by decide),
    (tun_reader_send_iff 3 [9]).2 (by decide)⟩

/-- C10: the inbound loop ignores the component value: deliveries with the
same payloads but different components produce identical writes, and any
non-empty payload is written whatever component it arrived on. -/
theorem inbound_ignores_component :
    (∀ msgs1 msgs2 : List (List Nat × Nat),
      msgs1.map Prod.fst = msgs2.map Prod.fst →
      tun_inbound_writes msgs1 = tun_inbound_writes msgs2)
    ∧ (∀ (data : List Nat) (comp : Nat) (msgs : List (List Nat × Nat)),
        data.isEmpty = false →
        tun_inbound_writes ((data, comp) :: msgs)
          = data :: tun_inbound_writes msgs) := by
  constructor
  · intro msgs1 msgs2 h
    rw [tun_inbound_writes_eq_filter, tun_inbound_writes_eq_filter, h]
  · intro data comp msgs h
    simp [tun_inbound_writes, h]

/-- Witness for `inbound_ignores_component`: a payload on component 2 is
written just as one on component 1, and a non-empty component-2 payload is
written. -/
theorem inbound_ignores_component_witness :
    tun_inbound_writes [([4], 2)] = tun_inbound_writes [([4], 1)]
    ∧ tun_inbound_writes [([4], 2)] = [4] :: tun_inbound_writes [] :=
  ⟨inbound_ignores_component.1 [([4], 2)] [([4], 1)] (by decide),
    inbound_ignores_component.2 [4] 2 [] (by decide)⟩

/-! Codec round-trip development.  The lemma chain mirrors the nesting of a
descriptor message: characters, string bodies, string literals, arrays of
strings, then the three-member descriptor object. -/

/-- Decoding a produced hex digit recovers its value. -/
theorem hexVal_hexDigitChar (k : Nat) (h : k < 16) :
    hexVal (hexDigitChar k) = some k := by
  interval_cases k <;> decide

/-- Decoding the four produced hex digits of `n < 0x10000` recovers `n`. -/
theorem hex4Val_uEscape (n : Nat) (h : n < 0x10000) :
    hex4Val (hexDigitChar (n / 4096 % 16)) (hexDigitChar (n / 256 % 16))
      (hexDigitChar (n / 16 % 16)) (hexDigitChar (n % 16)) = some n := by
  unfold hex4Val
  rw [hexVal_hexDigitChar _ (by omega), hexVal_hexDigitChar _ (by omega),
    hexVal_hexDigitChar _ (by omega), hexVal_hexDigitChar _ (by omega)]
  exact congrArg some (by omega)

/-- Unicode validity of a Lean `Char`, in `Nat` form: below the surrogate
range, or strictly between it and 0x110000. -/
theorem char_valid_nat (c : Char) :
    c.toNat < 0xD800 ∨ (0xDFFF < c.toNat ∧ c.toNat < 0x110000) := c.valid

/-- Scanner step: a closing quote ends the string body. -/
theorem parseStringBody_quote (rest : List Char) :
    parseStringBody ('"' :: rest) = some ([], rest) := by
  rw [parseStringBody.eq_def]
  simp

/-- Scanner step: an unescaped plain character is consumed verbatim. -/
theorem parseStringBody_plain (c : Char) (rest : List Char) (h1 : ¬c = '"')
    (h2 : ¬c = '\\') (h3 : ¬c.toNat < 0x20) :
    parseStringBody (c :: rest)
      = match parseStringBody rest with
        | some (cs, r) => some (c :: cs, r)
        | none => none := by
  rw [parseStringBody.eq_def]
  simp [h1, h2, h3]

/-- Scanner step: a backslash dispatches to the escape decoder and the
scanner resumes after the consumed characters. -/
theorem parseStringBody_escape_step (rest : List Char) :
    parseStringBody ('\\' :: rest)
      = match parseEscape rest with
        | some (ch, k) =>
          match parseStringBody (rest.drop k) with
          | some (cs, r) => some (ch :: cs, r)
          | none => none
        | none => none := by
  rw [parseStringBody.eq_def]
  simp

/-- Escape decoder on a non-`u` escape: the BACKSLASH table, one character
consumed. -/
theorem parseEscape_simple (e : Char) (rest : List Char) (he : ¬e = 'u') :
    parseEscape (e :: rest)
      = match simpleUnescape e with
        | some ch => some (ch, 1)
        | none => none := by
  simp [parseEscape, he]

/-- Escape decoder on a produced `uXXXX` with a non-surrogate value: that
code point, five characters consumed. -/
theorem parseEscape_u (n : Nat) (rest : List Char)
    (hn : n < 0x10000) (hs1 : ¬(0xD800 ≤ n ∧ n ≤ 0xDBFF))
    (hs2 : ¬(0xDC00 ≤ n ∧ n ≤ 0xDFFF)) :
    parseEscape ('u' :: hexDigitChar (n / 4096 % 16)
        :: hexDigitChar (n / 256 % 16) :: hexDigitChar (n / 16 % 16)
        :: hexDigitChar (n % 16) :: rest)
      = some (Char.ofNat n, 5) := by
  simp [parseEscape, hex4Val_uEscape n hn, hs1, hs2]

/-- Escape decoder on a produced high surrogate followed by a low
surrogate: the combined astral code point, eleven characters consumed. -/
theorem parseEscape_pair (n m : Nat) (rest : List Char)
    (hnb : n < 0x10000) (hmb : m < 0x10000)
    (hn : 0xD800 ≤ n ∧ n ≤ 0xDBFF) (hm : 0xDC00 ≤ m ∧ m ≤ 0xDFFF) :
    parseEscape ('u' :: hexDigitChar (n / 4096 % 16)
        :: hexDigitChar (n / 256 % 16) :: hexDigitChar (n / 16 % 16)
        :: hexDigitChar (n % 16) :: '\\' :: 'u' :: hexDigitChar (m / 4096 % 16)
        :: hexDigitChar (m / 256 % 16) :: hexDigitChar (m / 16 % 16)
        :: hexDigitChar (m % 16) :: rest)
      = some (Char.ofNat (0x10000 + (n - 0xD800) * 0x400 + (m - 0xDC00)), 11) := by
  simp [parseEscape, hex4Val_uEscape n hnb, hex4Val_uEscape m hmb, hn, hm]

/-- Scanning one escaped character undoes `escapeChar`: the scanner
consumes the escape and prepends the original character. -/
theorem parseStringBody_escapeChar (c : Char) (rest : List Char) :
    parseStringBody (escapeChar c ++ rest)
      = match parseStringBody rest with
        | some (cs, r) => some (c :: cs, r)
        | none => none := by
  by_cases hbsl : c = '\\'
  · subst hbsl
    rw [show escapeChar '\\' ++ rest = '\\' :: '\\' :: rest from rfl,
      parseStringBody_escape_step, parseEscape_simple _ _ (by decide)]
    simp [simpleUnescape]
  by_cases hquot : c = '"'
  · subst hquot
    rw [show escapeChar '"' ++ rest = '\\' :: '"' :: rest from rfl,
      parseStringBody_escape_step, parseEscape_simple _ _ (by decide)]
    simp [simpleUnescape]
  by_cases hb : c = Char.ofNat 8
  · subst hb
    rw [show escapeChar (Char.ofNat 8) ++ rest = '\\' :: 'b' :: rest from rfl,
      parseStringBody_escape_step, parseEscape_simple _ _ (by decide)]
    simp [simpleUnescape]
  by_cases hf : c = Char.ofNat 12
  · subst hf
    rw [show escapeChar (Char.ofNat 12) ++ rest = '\\' :: 'f' :: rest from rfl,
      parseStringBody_escape_step, parseEscape_simple _ _ (by decide)]
    simp [simpleUnescape]
  by_cases hn : c = '\n'
  · subst hn
    rw [show escapeChar '\n' ++ rest = '\\' :: 'n' :: rest from rfl,
      parseStringBody_escape_step, parseEscape_simple _ _ (by decide)]
    simp [simpleUnescape]
  by_cases hr : c = '\r'
  · subst hr
    rw [show escapeChar '\r' ++ rest = '\\' :: 'r' :: rest from rfl,
      parseStringBody_escape_step, parseEscape_simple _ _ (by decide)]
    simp [simpleUnescape]
  by_cases ht : c = '\t'
  · subst ht
    rw [show escapeChar '\t' ++ rest = '\\' :: 't' :: rest from rfl,
      parseStringBody_escape_step, parseEscape_simple _ _ (by decide)]
    simp [simpleUnescape]
  by_cases hprint : 0x20 ≤ c.toNat ∧ c.toNat ≤ 0x7e
  · have hesc : escapeChar c ++ rest = c :: rest := by
      simp [escapeChar, hbsl, hquot, hb, hf, hn, hr, ht, hprint]
    rw [hesc, parseStringBody_plain c rest hquot hbsl (by omega)]
  by_cases hbmp : c.toNat < 0x10000
  · have hesc : escapeChar c ++ rest
        = '\\' :: 'u' :: hexDigitChar (c.toNat / 4096 % 16)
            :: hexDigitChar (c.toNat / 256 % 16) :: hexDigitChar (c.toNat / 16 % 16)
            :: hexDigitChar (c.toNat % 16) :: rest := by
      simp [escapeChar, uEscape, hbsl, hquot, hb, hf, hn, hr, ht, hprint, hbmp]
    have hval := char_valid_nat c
    rw [hesc, parseStringBody_escape_step,
      parseEscape_u c.toNat rest hbmp (by omega) (by omega)]
    simp [Char.ofNat_toNat]
  · have hval := char_valid_nat c
    have hesc : escapeChar c ++ rest
        = '\\' :: 'u'
            :: hexDigitChar ((0xD800 + (c.toNat - 0x10000) / 0x400) / 4096 % 16)
            :: hexDigitChar ((0xD800 + (c.toNat - 0x10000) / 0x400) / 256 % 16)
            :: hexDigitChar ((0xD800 + (c.toNat - 0x10000) / 0x400) / 16 % 16)
            :: hexDigitChar ((0xD800 + (c.toNat - 0x10000) / 0x400) % 16)
            :: '\\' :: 'u'
            :: hexDigitChar ((0xDC00 + (c.toNat - 0x10000) % 0x400) / 4096 % 16)
            :: hexDigitChar ((0xDC00 + (c.toNat - 0x10000) % 0x400) / 256 % 16)
            :: hexDigitChar ((0xDC00 + (c.toNat - 0x10000) % 0x400) / 16 % 16)
            :: hexDigitChar ((0xDC00 + (c.toNat - 0x10000) % 0x400) % 16)
            :: rest := by
      simp [escapeChar, uEscape, hbsl, hquot, hb, hf, hn, hr, ht, hprint, hbmp]
    have harith : 0x10000 + (c.toNat - 0x10000) / 0x400 * 0x400
        + (c.toNat - 0x10000) % 0x400 = c.toNat := by omega
    rw [hesc, parseStringBody_escape_step,
      parseEscape_pair (0xD800 + (c.toNat - 0x10000) / 0x400)
        (0xDC00 + (c.toNat - 0x10000) % 0x400) rest (by omega) (by omega)
        (by omega) (by omega)]
    simp [harith, Char.ofNat_toNat]

/-- Scanning an escaped string body stops exactly at the closing quote and
recovers the body. -/
theorem parseStringBody_escapeList (s rest : List Char) :
    parseStringBody (escapeList s ++ ('"' :: rest)) = some (s, rest) := by
  induction s with
  | nil => simpa [escapeList] using parseStringBody_quote rest
  | cons c cs ih =>
    rw [escapeList, List.append_assoc, parseStringBody_escapeChar, ih]

/-- A list headed by a non-whitespace character is untouched by `skipWs`. -/
theorem skipWs_cons_not_ws (c : Char) (t : List Char) (h : isJsonWs c = false) :
    skipWs (c :: t) = c :: t := by
  simp [skipWs, h]

/-- One leading space is skipped. -/
theorem skipWs_space (t : List Char) : skipWs (' ' :: t) = skipWs t := by
  simp [skipWs, isJsonWs]

/-- Scanning a produced string literal yields the string. -/
theorem parseValue_encString (fuel : Nat) (s : String) (rest : List Char) :
    parseValue (fuel + 1) (encString s ++ rest) = some (.str s, rest) := by
  obtain ⟨sl⟩ := s
  have hshape : encString (String.mk sl) ++ rest
      = '"' :: (escapeList sl ++ ('"' :: rest)) := by
    simp [encString]
  rw [hshape, parseValue.eq_def]
  simp [parseStringBody_escapeList]

/-- Scanning the produced elements of a non-empty array of strings, up to
the closing bracket, yields the elements. -/
theorem parseElems_enc_strs (ss : List String) :
    ∀ (s : String) (fuel : Nat) (rest : List Char), ss.length + 2 ≤ fuel →
    parseElems fuel (encElems ((s :: ss).map Json.str) ++ (']' :: rest))
      = some ((s :: ss).map Json.str, rest) := by
  induction ss with
  | nil =>
    intro s fuel rest h
    obtain ⟨g, rfl⟩ : ∃ g, fuel = g + 1 := ⟨fuel - 1, by omega⟩
    have hshape : encElems ([s].map Json.str) ++ (']' :: rest)
        = encString s ++ (']' :: rest) := by
      simp [encElems, encElemsTail, encJson]
    obtain ⟨g2, rfl⟩ : ∃ g2, g = g2 + 1 := ⟨g - 1, by omega⟩
    have hv := parseValue_encString g2 s (']' :: rest)
    rw [hshape, parseElems.eq_def]
    simp [hv, skipWs, isJsonWs]
  | cons s2 ss ih =>
    intro s fuel rest h
    obtain ⟨g, rfl⟩ : ∃ g, fuel = g + 1 := ⟨fuel - 1, by omega⟩
    obtain ⟨g2, rfl⟩ : ∃ g2, g = g2 + 1 := ⟨g - 1, by omega⟩
    have hshape : encElems ((s :: s2 :: ss).map Json.str) ++ (']' :: rest)
        = encString s
            ++ (',' :: ' ' :: (encElems ((s2 :: ss).map Json.str) ++ (']' :: rest))) := by
      simp [encElems, encElemsTail, encJson, List.append_assoc]
    have hv := parseValue_encString g2 s
      (',' :: ' ' :: (encElems ((s2 :: ss).map Json.str) ++ (']' :: rest)))
    have hcons : encElems ((s2 :: ss).map Json.str) ++ (']' :: rest)
        = '"' :: (escapeList s2.data
            ++ ('"' :: (encElemsTail (ss.map Json.str) ++ (']' :: rest)))) := by
      simp [encElems, encString, encJson, List.append_assoc]
    have hskip : skipWs (encElems ((s2 :: ss).map Json.str) ++ (']' :: rest))
        = encElems ((s2 :: ss).map Json.str) ++ (']' :: rest) := by
      rw [hcons]; simp [skipWs, isJsonWs]
    have hrec := ih s2 (g2 + 1) rest (by simp at h ⊢; omega)
    rw [hshape, parseElems.eq_def]
    simp only [List.map_cons] at hv hskip hrec hcons
    rw [hcons] at hrec
    simp [hv, skipWs_space, hskip, hrec, skipWs, isJsonWs]

/-- Scanning a produced array of strings yields the array. -/
theorem parseValue_arr_strs (ss : List String) (fuel : Nat) (rest : List Char)
    (h : ss.length + 3 ≤ fuel) :
    parseValue fuel (encJson (.arr (ss.map .str)) ++ rest)
      = some (.arr (ss.map .str), rest) := by
  obtain ⟨g, rfl⟩ : ∃ g, fuel = g + 1 := ⟨fuel - 1, by omega⟩
  match ss with
  | [] =>
    have hshape : encJson (.arr (([] : List String).map .str)) ++ rest
        = '[' :: (']' :: rest) := by
      simp [encJson, encElems]
    rw [hshape, parseValue.eq_def]
    simp [skipWs, isJsonWs]
  | s :: ss2 =>
    have hshape : encJson (.arr ((s :: ss2).map .str)) ++ rest
        = '[' :: (encElems ((s :: ss2).map Json.str) ++ (']' :: rest)) := by
      simp [encJson, List.append_assoc]
    have hcons : encElems ((s :: ss2).map Json.str) ++ (']' :: rest)
        = '"' :: (escapeList s.data
            ++ ('"' :: (encElemsTail (ss2.map Json.str) ++ (']' :: rest)))) := by
      simp [encElems, encString, encJson, List.append_assoc]
    have hskip : skipWs (encElems ((s :: ss2).map Json.str) ++ (']' :: rest))
        = encElems ((s :: ss2).map Json.str) ++ (']' :: rest) := by
      rw [hcons]; simp [skipWs, isJsonWs]
    have helems := parseElems_enc_strs ss2 s g rest (by simp at h ⊢; omega)
    have hparse : parseElems g ('"' :: (escapeList s.data
        ++ ('"' :: (encElemsTail (ss2.map Json.str) ++ (']' :: rest)))))
        = some ((s :: ss2).map Json.str, rest) := hcons ▸ helems
    rw [hshape, parseValue.eq_def]
    simp only [List.map_cons] at hskip hcons hparse
    simp [hskip, hcons, hparse, skipWs, isJsonWs]

/-- Every encoded value starts with a non-whitespace character that closes
nothing: `"` for strings, `[` for arrays, `{` for objects. -/
theorem encJson_head_shape (v : Json) (rest : List Char) :
    ∃ c t, encJson v ++ rest = c :: t
      ∧ isJsonWs c = false ∧ ¬c = ']' ∧ ¬c = '}' := by
  cases v with
  | str s =>
    refine ⟨'"', escapeList s.data ++ ('"' :: rest), ?_, by decide, by decide, by decide⟩
    simp [encJson, encString]
  | arr es =>
    refine ⟨'[', encElems es ++ (']' :: rest), ?_, by decide, by decide, by decide⟩
    simp [encJson, List.append_assoc]
  | obj ms =>
    refine ⟨'{', encMembers ms ++ ('}' :: rest), ?_, by decide, by decide, by decide⟩
    simp [encJson, List.append_assoc]

/-- Encoded values never start with whitespace. -/
theorem skipWs_encJson (v : Json) (r : List Char) :
    skipWs (encJson v ++ r) = encJson v ++ r := by
  obtain ⟨c, t, hct, hws, _, _⟩ := encJson_head_shape v r
  rw [hct, skipWs_cons_not_ws _ _ hws]

/-- Scanning the produced last member of an object, up to the closing
brace, yields that member, given that its value scans correctly. -/
theorem parseMembers_enc_last (fuel : Nat) (k : String) (v : Json) (w : List Char)
    (hval : parseValue fuel (encJson v ++ ('}' :: w)) = some (v, '}' :: w)) :
    parseMembers (fuel + 1) (encMembers [(k, v)] ++ ('}' :: w)) = some ([(k, v)], w) := by
  have hshape : encMembers [(k, v)] ++ ('}' :: w)
      = '"' :: (escapeList k.data
          ++ ('"' :: (':' :: ' ' :: (encJson v ++ ('}' :: w))))) := by
    simp [encMembers, encMembersTail, encString, List.append_assoc]
  rw [hshape, parseMembers.eq_def]
  simp [parseStringBody_escapeList, skipWs_space, skipWs_encJson, hval,
    skipWs, isJsonWs]

/-- Scanning a produced member followed by further members consumes the
member and the comma separator and continues with the rest, given that the
value and the remaining members scan correctly. -/
theorem parseMembers_enc_cons (fuel : Nat) (k : String) (v : Json)
    (k2 : String) (v2 : Json) (ms2 : List (String × Json))
    (res : List (String × Json)) (w w2 : List Char)
    (hval : parseValue fuel
        (encJson v ++ (encMembersTail ((k2, v2) :: ms2) ++ ('}' :: w)))
      = some (v, encMembersTail ((k2, v2) :: ms2) ++ ('}' :: w)))
    (hrec : parseMembers fuel (encMembers ((k2, v2) :: ms2) ++ ('}' :: w))
      = some (res, w2)) :
    parseMembers (fuel + 1) (encMembers ((k, v) :: (k2, v2) :: ms2) ++ ('}' :: w))
      = some ((k, v) :: res, w2) := by
  have hshape : encMembers ((k, v) :: (k2, v2) :: ms2) ++ ('}' :: w)
      = '"' :: (escapeList k.data
          ++ ('"' :: (':' :: ' ' :: (encJson v
              ++ (encMembersTail ((k2, v2) :: ms2) ++ ('}' :: w)))))) := by
    simp [encMembers, encMembersTail, encString, List.append_assoc]
  have htail : encMembersTail ((k2, v2) :: ms2) ++ ('}' :: w)
      = ',' :: ' ' :: (encMembers ((k2, v2) :: ms2) ++ ('}' :: w)) := by
    simp [encMembersTail, encMembers, List.append_assoc]
  have hs2 : encMembers ((k2, v2) :: ms2) ++ ('}' :: w)
      = '"' :: (escapeList k2.data
          ++ ('"' :: (':' :: ' ' :: (encJson v2
              ++ (encMembersTail ms2 ++ ('}' :: w)))))) := by
    simp [encMembers, encString, List.append_assoc]
  have hskipM : skipWs (encMembers ((k2, v2) :: ms2) ++ ('}' :: w))
      = encMembers ((k2, v2) :: ms2) ++ ('}' :: w) := by
    rw [hs2]
    simp [skipWs, isJsonWs]
  have hrec2 : parseMembers fuel ('"' :: (escapeList k2.data
      ++ ('"' :: (':' :: ' ' :: (encJson v2
          ++ (encMembersTail ms2 ++ ('}' :: w))))))) = some (res, w2) :=
    hs2 ▸ hrec
  rw [htail] at hval
  rw [hshape, parseMembers.eq_def]
  simp [parseStringBody_escapeList, skipWs_space, skipWs_encJson, hval, htail,
    hskipM, hrec, hrec2, skipWs, isJsonWs]

/-- Scanning a produced descriptor object yields the descriptor object,
with fuel in surplus of the candidate count. -/
theorem parseValue_descr (d : SessionDescriptor) (fuel : Nat) (rest : List Char)
    (h : d.candidates.length + 6 ≤ fuel) :
    parseValue fuel (encJson (descrJson d) ++ rest) = some (descrJson d, rest) := by
  obtain ⟨f, rfl⟩ : ∃ f, fuel = f + 5 := ⟨fuel - 5, by omega⟩
  have hvu : parseValue (f + 1) (encJson (.str d.username) ++ ('}' :: rest))
      = some (.str d.username, '}' :: rest) := by
    rw [show encJson (.str d.username) = encString d.username from by simp [encJson]]
    exact parseValue_encString f d.username ('}' :: rest)
  have hmu : parseMembers (f + 2)
      (encMembers [("username", .str d.username)] ++ ('}' :: rest))
      = some ([("username", .str d.username)], rest) :=
    parseMembers_enc_last (f + 1) _ _ rest hvu
  have hvp : parseValue (f + 2) (encJson (.str d.password)
      ++ (encMembersTail [("username", .str d.username)] ++ ('}' :: rest)))
      = some (.str d.password,
          encMembersTail [("username", .str d.username)] ++ ('}' :: rest)) := by
    rw [show encJson (.str d.password) = encString d.password from by simp [encJson]]
    exact parseValue_encString (f + 1) d.password _
  have hmp : parseMembers (f + 3)
      (encMembers [("password", .str d.password), ("username", .str d.username)]
        ++ ('}' :: rest))
      = some ([("password", .str d.password), ("username", .str d.username)], rest) :=
    parseMembers_enc_cons (f + 2) "password" (.str d.password)
      "username" (.str d.username) [] _ rest rest hvp hmu
  have hva : parseValue (f + 3) (encJson (.arr (d.candidates.map .str))
      ++ (encMembersTail
            [("password", .str d.password), ("username", .str d.username)]
          ++ ('}' :: rest)))
      = some (.arr (d.candidates.map .str),
          encMembersTail [("password", .str d.password), ("username", .str d.username)]
            ++ ('}' :: rest)) :=
    parseValue_arr_strs d.candidates (f + 3) _ (by omega)
  have hma : parseMembers (f + 4)
      (encMembers [("candidates", .arr (d.candidates.map .str)),
          ("password", .str d.password), ("username", .str d.username)]
        ++ ('}' :: rest))
      = some ([("candidates", .arr (d.candidates.map .str)),
          ("password", .str d.password), ("username", .str d.username)], rest) :=
    parseMembers_enc_cons (f + 3) "candidates" (.arr (d.candidates.map .str))
      "password" (.str d.password) [("username", .str d.username)] _ rest rest
      hva hmp
  have hshape : encJson (descrJson d) ++ rest
      = '{' :: (encMembers [("candidates", .arr (d.candidates.map .str)),
          ("password", .str d.password), ("username", .str d.username)]
        ++ ('}' :: rest)) := by
    simp [encJson, descrJson, List.append_assoc]
  have hsM : encMembers [("candidates", .arr (d.candidates.map .str)),
        ("password", .str d.password), ("username", .str d.username)]
      ++ ('}' :: rest)
      = '"' :: (escapeList ("candidates" : String).data
          ++ ('"' :: (':' :: ' ' :: (encJson (.arr (d.candidates.map .str))
              ++ (encMembersTail [("password", .str d.password),
                    ("username", .str d.username)]
                ++ ('}' :: rest)))))) := by
    simp [encMembers, encString, List.append_assoc]
  have hma2 := hsM ▸ hma
  rw [hshape, parseValue.eq_def]
  simp [descrJson, hsM, hma2, skipWs, isJsonWs]

/-- A produced string literal has at least its two quotes. -/
theorem encString_length (s : String) : 2 ≤ (encString s).length := by
  simp only [encString, List.length_cons, List.length_append]
  omega

/-- Each further array element contributes at least one character. -/
theorem encElemsTail_strs_length (ss : List String) :
    ss.length ≤ (encElemsTail (ss.map .str)).length := by
  induction ss with
  | nil => simp [encElemsTail]
  | cons s ss ih =>
    rw [show encElemsTail ((s :: ss).map .str)
        = ',' :: ' ' :: (encJson (.str s) ++ encElemsTail (ss.map .str)) from by
      simp [encElemsTail]]
    simp only [List.length_cons, List.length_append]
    omega

/-- A produced array of strings is longer than its element count. -/
theorem encArr_strs_length (ss : List String) :
    ss.length + 2 ≤ (encJson (.arr (ss.map .str))).length := by
  cases ss with
  | nil => simp [encJson, encElems]
  | cons s ss2 =>
    have h1 : encJson (.arr ((s :: ss2).map .str))
        = '[' :: (encElems ((s :: ss2).map .str) ++ [']']) := by simp [encJson]
    have h2 : encElems ((s :: ss2).map .str)
        = encString s ++ encElemsTail (ss2.map .str) := by
      simp [encElems, encJson]
    have h3 := encString_length s
    have h4 := encElemsTail_strs_length ss2
    rw [h1, h2]
    simp only [List.length_cons, List.length_append, List.length_map]
    simp only [List.length_map] at h4
    omega

/-- A produced descriptor message is long enough to serve as fuel surplus
for its own scan. -/
theorem descr_enc_length (d : SessionDescriptor) :
    d.candidates.length + 5 ≤ (encJson (descrJson d)).length := by
  have h0 : encJson (descrJson d)
      = '{' :: (encMembers [("candidates", .arr (d.candidates.map .str)),
          ("password", .str d.password), ("username", .str d.username)] ++ ['}']) := by
    simp [encJson, descrJson]
  have h1 : encMembers [("candidates", .arr (d.candidates.map .str)),
        ("password", .str d.password), ("username", .str d.username)]
      = encString "candidates"
          ++ ':' :: ' ' :: (encJson (.arr (d.candidates.map .str))
              ++ encMembersTail [("password", .str d.password),
                    ("username", .str d.username)]) := by
    simp [encMembers]
  have h2 := encString_length "candidates"
  have h3 := encArr_strs_length d.candidates
  rw [h0, h1]
  simp only [List.length_cons, List.length_append]
  omega

/-- C5: descriptor serialization followed by deserialization is the
identity: for every SessionDescriptor — any candidate list of strings,
including the empty list, and any username and password strings —
`object_from_string (object_to_string d)` recovers exactly the descriptor
message `d`. -/
theorem descriptor_serialization_roundtrip (d : SessionDescriptor) :
    object_from_string (object_to_string (descrJson d)) = some (descrJson d) := by
  have hdata : (object_to_string (descrJson d)).data = encJson (descrJson d) := rfl
  have hskip : skipWs (encJson (descrJson d)) = encJson (descrJson d) := by
    simpa using skipWs_encJson (descrJson d) []
  have hlen := descr_enc_length d
  have hparse : parseValue ((encJson (descrJson d)).length + 1)
      (encJson (descrJson d)) = some (descrJson d, []) := by
    simpa using parseValue_descr d ((encJson (descrJson d)).length + 1) [] (by omega)
  simp only [object_from_string, hdata, hskip, hparse]
  simp [skipWs]

end IceVpn
